import Mathlib

/-!
Shallow embedding of the flow-backend order service (src/main.py) and proofs
about its order lifecycle, email validation, webhook confirmation, download
authorization and gateway request signing.

Conventions of the embedding:
  * The sqlite table `orders` is a `List Order` in insertion order; SQL
    `INSERT` is append, `UPDATE ... WHERE flow_token=?` maps over the list,
    `SELECT ... WHERE col=? ... fetchone()` is `List.find?`.
  * Network effects (the flow gateway, email delivery) are inputs: each
    handler takes the observed gateway response as a parameter and returns
    the background email tasks it would enqueue.
  * Python machine behaviour is modelled for the character ranges the
    service handles (ASCII): `str.strip`, `str.lower`, `int(...)`, and the
    regex engine are translated directly below.
-/

/-- The characters Python `\s` and `str.strip()` treat as whitespace
(ASCII range): space, tab, newline, carriage return, vertical tab, form feed. -/
def isPySpace (c : Char) : Bool :=
  c == ' ' || c == '\t' || c == '\n' || c == '\r' || c == '\x0b' || c == '\x0c'

/-- Python `str.strip()` on the underlying character list: remove leading and
trailing whitespace. -/
def pyStripL (l : List Char) : List Char :=
  ((l.dropWhile isPySpace).reverse.dropWhile isPySpace).reverse

/-- Python `str.strip()`. -/
def pyStrip (s : String) : String := ⟨pyStripL s.data⟩

/-- Python `str.lower()` (ASCII case mapping, via `Char.toLower`). -/
def pyLower (s : String) : String := ⟨s.data.map Char.toLower⟩

/-- The normalisation pipeline applied by `pay_create` to the submitted
email: `(payload.get("email") or "").strip().lower()`. -/
def pyNormalize (s : String) : String := pyLower (pyStrip s)

/-- Core acceptance of `EMAIL_REGEX = ^[^@\s]+@[^@\s]+\.[^@\s]+$` on a
character list (without the end-of-string newline allowance of `$`):
a nonempty local part without `@` or whitespace, one `@`, then a tail
without `@` or whitespace containing a `.` that is neither the first
character after the `@` nor the last character. -/
def emailCore (l : List Char) : Bool :=
  let a := l.takeWhile (fun c => c != '@')
  match l.dropWhile (fun c => c != '@') with
  | '@' :: t =>
      !a.isEmpty && a.all (fun c => !isPySpace c) &&
      t.all (fun c => c != '@' && !isPySpace c) &&
      ((t.drop 1).dropLast).contains '.'
  | _ => false

/-- `is_valid_email` from src/main.py: `bool(email and EMAIL_REGEX.match(email))`.
Python `$` also matches just before one trailing newline, hence the second
disjunct. -/
def is_valid_email (s : String) : Bool :=
  emailCore s.data ||
    (match s.data.getLast? with
     | some c => c == '\n' && emailCore s.data.dropLast
     | none => false)

/-- One row of the sqlite `orders` table (src/main.py, `db_init`).
`status` is the integer enum Pending = 1 / Paid = 2; `download_token` and
`paid_at` are the nullable columns. -/
structure Order where
  id : String
  created_at : String
  email : String
  commerce_order : String
  flow_token : String
  status : Nat
  download_token : Option String
  paid_at : Option String
deriving Repr, DecidableEq

/-- `db_create_order`: INSERT of a fresh Pending row
`(order_id, utcnow, email, commerce_order, flow_token, 1, NULL, NULL)`. -/
def db_create_order (order_id email commerce_order flow_token created_at : String)
    (store : List Order) : List Order :=
  store ++ [⟨order_id, created_at, email, commerce_order, flow_token, 1, none, none⟩]

/-- `db_get_by_flow_token`: `SELECT id, email, status, download_token FROM
orders WHERE flow_token=?` with `fetchone()`; we return the whole first
matching row (the caller only reads the selected columns). -/
def db_get_by_flow_token (flow_token : String) (store : List Order) : Option Order :=
  store.find? (fun o => o.flow_token == flow_token)

/-- The row update performed by `db_mark_paid` on a matching row:
`SET status=2, download_token=?, paid_at=?`. -/
def markPaidRow (flow_token download_token paid_at : String) (o : Order) : Order :=
  if o.flow_token == flow_token then
    { o with status := 2, download_token := some download_token, paid_at := some paid_at }
  else o

/-- `db_mark_paid`: `UPDATE orders SET status=2, download_token=?, paid_at=?
WHERE flow_token=?` (touches every matching row). -/
def db_mark_paid (flow_token download_token paid_at : String)
    (store : List Order) : List Order :=
  store.map (markPaidRow flow_token download_token paid_at)

/-- `db_get_by_download_token`: `SELECT email, status FROM orders WHERE
download_token=?` with `fetchone()`; rows with NULL `download_token` never
match an SQL equality, mirrored by `some token` never matching `none`. -/
def db_get_by_download_token (download_token : String) (store : List Order) : Option Order :=
  store.find? (fun o => o.download_token == some download_token)

/-- A JSON scalar as Python sees it after `resp.json()`; enough for the
`status` field read by the confirmation handler. -/
inductive PyVal
  | int (n : Int)
  | str (s : String)
deriving Repr, DecidableEq

/-- Value of a digit run, underscores already removed. -/
def digitsVal (l : List Char) : Nat :=
  l.foldl (fun acc c => acc * 10 + (c.toNat - 48)) 0

/-- After the first digit, Python `int(...)` accepts digits with single
underscores strictly between digits. -/
def digitTailOk : List Char → Bool
  | [] => true
  | ['_'] => false
  | '_' :: c :: rest => c.isDigit && digitTailOk rest
  | c :: rest => c.isDigit && digitTailOk rest

/-- An unsigned decimal literal as accepted by Python `int(...)`. -/
def parseUnsigned (l : List Char) : Option Nat :=
  match l with
  | [] => none
  | c :: rest =>
      if c.isDigit && digitTailOk rest then
        some (digitsVal (l.filter (fun c => c != '_')))
      else none

/-- Python `int(s)` on a string: strips surrounding whitespace, accepts an
optional sign and a decimal literal, otherwise raises (here: `none`). -/
def pyIntStr (s : String) : Option Int :=
  match pyStripL s.data with
  | '+' :: rest => (parseUnsigned rest).map (fun n => (n : Int))
  | '-' :: rest => (parseUnsigned rest).map (fun n => -(n : Int))
  | l => (parseUnsigned l).map (fun n => (n : Int))

/-- Python `int(v)` on the JSON scalar `v`. -/
def pyInt : PyVal → Option Int
  | .int n => some n
  | .str s => pyIntStr s

/-- Observed outcome of `flow_get_status` inside the confirmation handler:
either the call raised (network failure or a body `resp.json()` cannot
parse), or it produced a JSON object whose `status` field is given
(`none` when the field is absent). -/
inductive GwStatusResult
  | raise
  | ok (statusField : Option PyVal)
deriving Repr, DecidableEq

/-- Observed JSON object returned by `flow_post("/payment/create", ...)`:
the `token` and `url` fields as far as they are present (`data["token"]`
raises KeyError when absent). -/
structure FlowCreateData where
  token : Option String
  url : Option String
deriving Repr, DecidableEq

/-- Result of the `POST /pay/create` handler, seen from the HTTP client. -/
inductive PayOutcome
  | invalid (code : Nat) (msg : String)
  | errorProp
  | ok (checkoutUrl : String) (token : String)
deriving Repr, DecidableEq

/-- Full effect of one `pay_create` call: HTTP outcome, resulting store, and
the parameter map handed to `flow_post` (`none` when validation failed
before the gateway call). -/
structure PayR where
  outcome : PayOutcome
  store : List Order
  sent : Option (List (String × String))
deriving Repr, DecidableEq

/-- The literal `params` dict built by `pay_create` (amount rendered as the
string the form encoding and signing see). -/
def payParams (commerce_order email publicBase : String) : List (String × String) :=
  [("commerceOrder", commerce_order),
   ("subject", "Pack IA para PYMES 2026"),
   ("currency", "CLP"),
   ("amount", "350"),
   ("email", email),
   ("urlConfirmation", publicBase ++ "/flow/confirmation"),
   ("urlReturn", publicBase ++ "/flow/return")]

/-- The `POST /pay/create` handler. `payloadEmail` is the raw `email` field
of the JSON body (`none` when absent or null; `payload.get("email") or ""`
turns both and the empty string into `""`). `order_id` and `commerce_order`
are the two fresh uuid4 values, `created_at` the insertion timestamp, `gw`
the observed gateway interaction. -/
def pay_create (payloadEmail : Option String)
    (order_id commerce_order created_at publicBase : String)
    (gw : Except Unit FlowCreateData) (store : List Order) : PayR :=
  let email := pyNormalize (payloadEmail.getD "")
  if !is_valid_email email then
    ⟨.invalid 400 "Email inválido", store, none⟩
  else
    let params := payParams commerce_order email publicBase
    match gw with
    | .error _ => ⟨.errorProp, store, some params⟩
    | .ok data =>
      match data.token with
      | none => ⟨.errorProp, store, some params⟩
      | some token =>
        match data.url with
        | none => ⟨.errorProp, store, some params⟩
        | some url =>
            ⟨.ok (url ++ "?token=" ++ token) token,
             db_create_order order_id email commerce_order token created_at store,
             some params⟩

/-- Python `existing_token or uuid4().hex`: reuse a truthy existing token,
otherwise the fresh one (an empty string is falsy). -/
def orElseFresh (existing : Option String) (fresh : String) : String :=
  match existing with
  | some d => if d = "" then fresh else d
  | none => fresh

/-- HTTP outcome of the `POST /flow/confirmation` handler: `ok` is the
`JSONResponse({"ok": True})`, `raise` an exception escaping the handler
(which the framework turns into an error response). -/
inductive ConfirmOutcome
  | ok
  | raise
deriving Repr, DecidableEq

/-- Full effect of one `flow_confirmation` call: outcome, resulting store,
and the `(to, subject, body)` background email tasks enqueued. -/
structure ConfirmR where
  outcome : ConfirmOutcome
  store : List Order
  emails : List (String × String × String)
deriving Repr, DecidableEq

/-- The `POST /flow/confirmation` webhook handler. `formToken` is the
form field `token` (`none` when absent, in which case no row can match),
`gw` the observed `flow_get_status` interaction, `freshToken` the
`uuid4().hex` value minted for this call, `now` the `paid_at` timestamp. -/
def flow_confirmation (formToken : Option String) (gw : GwStatusResult)
    (freshToken now downloadBase : String) (store : List Order) : ConfirmR :=
  match gw with
  | .raise => ⟨.raise, store, []⟩
  | .ok statusField =>
    match pyInt (statusField.getD (.int 0)) with
    | none => ⟨.raise, store, []⟩
    | some n =>
      if n = 2 then
        match formToken with
        | none => ⟨.ok, store, []⟩
        | some token =>
          match db_get_by_flow_token token store with
          | none => ⟨.ok, store, []⟩
          | some order =>
            let download_token := orElseFresh order.download_token freshToken
            let link := downloadBase ++ "/download/" ++ download_token
            ⟨.ok, db_mark_paid token download_token now store,
             [(order.email, "Tu Pack IA para PYMES 2026 — Descarga",
               "Gracias por tu compra.\n\nDescarga aquí:\n" ++ link)]⟩
      else ⟨.ok, store, []⟩

/-- Result of `GET /download/{download_token}`: a 403, a redirect to the
external drive URL, or a streamed local zip file. -/
inductive DownloadOutcome
  | forbidden (code : Nat) (msg : String)
  | redirect (url : String)
  | file (path : String)
deriving Repr, DecidableEq

/-- The `GET /download/{download_token}` handler; `productDriveUrl` and
`productFile` are the corresponding configuration values. -/
def download (download_token productDriveUrl productFile : String)
    (store : List Order) : DownloadOutcome :=
  match db_get_by_download_token download_token store with
  | none => .forbidden 403 "Link inválido"
  | some row =>
      if row.status ≠ 2 then .forbidden 403 "Link inválido"
      else if productDriveUrl ≠ "" then .redirect productDriveUrl
      else .file productFile

/-! ## Order lifecycle as a transition system

`Op` is one inbound request to the controller, carrying the fresh random
identifiers and observed external responses of that call. `step` is the
effect of the corresponding handler on the `orders` table. -/

deriving instance DecidableEq for Except

inductive Op
  | pay (payloadEmail : Option String)
      (order_id commerce_order created_at publicBase : String)
      (gw : Except Unit FlowCreateData)
  | confirm (formToken : Option String) (gw : GwStatusResult)
      (freshToken now downloadBase : String)
  | download (download_token productDriveUrl productFile : String)
deriving DecidableEq

/-- Well-formed calls: the `uuid4().hex` value minted by the confirmation
handler is never the empty string (a uuid hex digest has 32 characters). -/
def opWf : Op → Prop
  | .confirm _ _ fresh _ _ => fresh ≠ ""
  | _ => True

instance (op : Op) : Decidable (opWf op) :=
  match op with
  | .pay .. => isTrue trivial
  | .confirm _ _ f _ _ => inferInstanceAs (Decidable (f ≠ ""))
  | .download .. => isTrue trivial

/-- Effect of one handler call on the `orders` table (the `GET /download`
handler only reads). -/
def step (op : Op) (store : List Order) : List Order :=
  match op with
  | .pay p oid co ts pub gw => (pay_create p oid co ts pub gw store).store
  | .confirm ft gw fresh now base => (flow_confirmation ft gw fresh now base store).store
  | .download _ _ _ => store

/-- The table reached from `store` after a sequence of handler calls. -/
def run (ops : List Op) (store : List Order) : List Order :=
  ops.foldl (fun s op => step op s) store

/-- A download token column value is assigned and usable: not NULL and not
the empty string. -/
def dtOk (o : Order) : Prop :=
  o.download_token ≠ none ∧ o.download_token ≠ some ""

/-- Per-row shape invariant: a Pending row has no download token, a Paid row
has a nonempty one. -/
def statusOk (o : Order) : Prop :=
  (o.status = 1 ∧ o.download_token = none) ∨ (o.status = 2 ∧ dtOk o)

/-- Download token of the first row carrying a gateway token (the row
`db_get_by_flow_token` returns). -/
def firstDT (store : List Order) (t : String) : Option String :=
  (db_get_by_flow_token t store).bind (fun o => o.download_token)

/-- Rows sharing a gateway token agree with the row the lookup returns:
every assigned download token equals the one of the first row with the same
`flow_token`. -/
def coherent (store : List Order) : Prop :=
  ∀ o ∈ store, o.download_token = none ∨ o.download_token = firstDT store o.flow_token

/-- Invariant of every reachable `orders` table. -/
def storeInv (store : List Order) : Prop :=
  (∀ o ∈ store, statusOk o) ∧ coherent store

/-- How a single row may change across one handler call: Paid is terminal
and keeps its token, an assigned download token is never replaced, and a
token assignment happens only on the Pending to Paid transition. -/
def orderEvolve (o o' : Order) : Prop :=
  (o.status = 2 → o'.status = 2 ∧ o'.download_token = o.download_token) ∧
  (o.download_token ≠ none → o'.download_token = o.download_token) ∧
  (o'.download_token ≠ o.download_token →
     o.status = 1 ∧ o'.status = 2 ∧ o.download_token = none)

/-! ## Gateway request signing (`flow_sign`, `flow_post`, `flow_get_status`)

The signature is a real HMAC-SHA256 over the UTF-8 bytes of the
concatenated sorted parameters, computed below on `Nat` bytes. -/

/-- UTF-8 encoding of one code point (Python `str.encode()`). -/
def utf8Bytes (c : Nat) : List Nat :=
  if c < 0x80 then [c]
  else if c < 0x800 then
    [0xC0 ||| (c >>> 6), 0x80 ||| (c &&& 0x3F)]
  else if c < 0x10000 then
    [0xE0 ||| (c >>> 12), 0x80 ||| ((c >>> 6) &&& 0x3F), 0x80 ||| (c &&& 0x3F)]
  else
    [0xF0 ||| (c >>> 18), 0x80 ||| ((c >>> 12) &&& 0x3F),
     0x80 ||| ((c >>> 6) &&& 0x3F), 0x80 ||| (c &&& 0x3F)]

/-- UTF-8 bytes of a string. -/
def strBytes (s : String) : List Nat :=
  s.data.flatMap (fun c => utf8Bytes c.toNat)

/-- Truncation to a 32-bit word. -/
def w32 (n : Nat) : Nat := n % 4294967296

/-- Rotate a 32-bit word right by `k`. -/
def rotr32 (k n : Nat) : Nat := w32 ((n >>> k) ||| (n <<< (32 - k)))

def sha256Ch (e f g : Nat) : Nat := (e &&& f) ^^^ ((e ^^^ 4294967295) &&& g)

def sha256Maj (a b c : Nat) : Nat := (a &&& b) ^^^ (a &&& c) ^^^ (b &&& c)

def sha256S0 (a : Nat) : Nat := rotr32 2 a ^^^ rotr32 13 a ^^^ rotr32 22 a

def sha256S1 (e : Nat) : Nat := rotr32 6 e ^^^ rotr32 11 e ^^^ rotr32 25 e

def sha256s0 (x : Nat) : Nat := rotr32 7 x ^^^ rotr32 18 x ^^^ (x >>> 3)

def sha256s1 (x : Nat) : Nat := rotr32 17 x ^^^ rotr32 19 x ^^^ (x >>> 10)

def sha256K : List Nat :=
  [1116352408, 1899447441, 3049323471, 3921009573, 961987163, 1508970993,
   2453635748, 2870763221, 3624381080, 310598401, 607225278, 1426881987,
   1925078388, 2162078206, 2614888103, 3248222580, 3835390401, 4022224774,
   264347078, 604807628, 770255983, 1249150122, 1555081692, 1996064986,
   2554220882, 2821834349, 2952996808, 3210313671, 3336571891, 3584528711,
   113926993, 338241895, 666307205, 773529912, 1294757372, 1396182291,
   1695183700, 1986661051, 2177026350, 2456956037, 2730485921, 2820302411,
   3259730800, 3345764771, 3516065817, 3600352804, 4094571909, 275423344,
   430227734, 506948616, 659060556, 883997877, 958139571, 1322822218,
   1537002063, 1747873779, 1955562222, 2024104815, 2227730452, 2361852424,
   2428436474, 2756734187, 3204031479, 3329325298]

/-- SHA-256 padding: append `0x80`, zeros to 56 mod 64, and the 64-bit
big-endian bit length. -/
def sha256Pad (msg : List Nat) : List Nat :=
  let bitLen := 8 * msg.length
  let zeros := (119 - msg.length % 64) % 64
  msg ++ 0x80 :: List.replicate zeros 0 ++
    (List.range 8).map (fun i => (bitLen >>> (8 * (7 - i))) % 256)

/-- Split into 64-byte blocks (fuel-based so that it reduces in the kernel;
the fuel is an upper bound on the number of blocks). -/
def chunks64 : Nat → List Nat → List (List Nat)
  | 0, _ => []
  | _, [] => []
  | fuel + 1, l => l.take 64 :: chunks64 fuel (l.drop 64)

/-- Big-endian 32-bit words of a byte list. -/
def toWords : List Nat → List Nat
  | a :: b :: c :: d :: rest => (a * 16777216 + b * 65536 + c * 256 + d) :: toWords rest
  | _ => []

/-- One message schedule extension step on the reversed schedule
(most recent word first). -/
def extendStep (rw : List Nat) : List Nat :=
  w32 (sha256s1 (rw.getD 1 0) + rw.getD 6 0 + sha256s0 (rw.getD 14 0) + rw.getD 15 0) :: rw

/-- The 64-word message schedule of one block. -/
def sha256Schedule (blockWords : List Nat) : List Nat :=
  ((List.range 48).foldl (fun rw _ => extendStep rw) blockWords.reverse).reverse

structure Hash8 where
  a : Nat
  b : Nat
  c : Nat
  d : Nat
  e : Nat
  f : Nat
  g : Nat
  h : Nat
deriving Repr, DecidableEq

/-- One round of the SHA-256 compression function. -/
def compressStep (s : Hash8) (kw : Nat × Nat) : Hash8 :=
  let t1 := w32 (s.h + sha256S1 s.e + sha256Ch s.e s.f s.g + kw.1 + kw.2)
  let t2 := w32 (sha256S0 s.a + sha256Maj s.a s.b s.c)
  ⟨w32 (t1 + t2), s.a, s.b, s.c, w32 (s.d + t1), s.e, s.f, s.g⟩

/-- Process one 64-byte block. -/
def compressBlock (h : Hash8) (block : List Nat) : Hash8 :=
  let ws := sha256Schedule (toWords block)
  let s := (sha256K.zip ws).foldl compressStep h
  ⟨w32 (h.a + s.a), w32 (h.b + s.b), w32 (h.c + s.c), w32 (h.d + s.d),
   w32 (h.e + s.e), w32 (h.f + s.f), w32 (h.g + s.g), w32 (h.h + s.h)⟩

/-- Big-endian bytes of a 32-bit word. -/
def wordBytes (w : Nat) : List Nat :=
  [(w >>> 24) % 256, (w >>> 16) % 256, (w >>> 8) % 256, w % 256]

/-- SHA-256 digest (32 bytes) of a byte list. -/
def sha256 (msg : List Nat) : List Nat :=
  let padded := sha256Pad msg
  let blocks := chunks64 padded.length padded
  let hh := blocks.foldl compressBlock
    ⟨1779033703, 3144134277, 1013904242, 2773480762,
     1359893119, 2600822924, 528734635, 1541459225⟩
  [hh.a, hh.b, hh.c, hh.d, hh.e, hh.f, hh.g, hh.h].flatMap wordBytes

def hexChar (n : Nat) : Char :=
  if n < 10 then Char.ofNat (48 + n) else Char.ofNat (87 + n)

def byteHex (b : Nat) : List Char := [hexChar (b / 16), hexChar (b % 16)]

/-- Lowercase hex digest of a byte list (Python `hexdigest()`). -/
def hexDigest (bytes : List Nat) : String := ⟨bytes.flatMap byteHex⟩

/-- HMAC-SHA256 (RFC 2104) over byte lists, 64-byte block size. -/
def hmacSha256 (key msg : List Nat) : List Nat :=
  let k0 := if key.length > 64 then sha256 key else key
  let k1 := k0 ++ List.replicate (64 - k0.length) 0
  sha256 ((k1.map (fun b => b ^^^ 0x5c)) ++
    sha256 ((k1.map (fun b => b ^^^ 0x36)) ++ msg))

/-- `hmac.new(secret.encode(), raw.encode(), hashlib.sha256).hexdigest()`. -/
def hmacSha256Hex (secret raw : String) : String :=
  hexDigest (hmacSha256 (strBytes secret) (strBytes raw))

/-- Lexicographic comparison of character lists by code point, the order
Python uses on strings. -/
def charListLt : List Char → List Char → Bool
  | [], [] => false
  | [], _ :: _ => true
  | _ :: _, [] => false
  | a :: as, b :: bs => a.toNat < b.toNat || (a.toNat == b.toNat && charListLt as bs)

/-- Python tuple comparison on `(key, value)` pairs, as `sorted(params.items())`
uses: by key, ties broken by value. -/
def paramLe (x y : String × String) : Bool :=
  charListLt x.1.data y.1.data ||
    (x.1 == y.1 && (x.2 == y.2 || charListLt x.2.data y.2.data))

/-- Stable insertion into a sorted list (structural, kernel-reducible). -/
def insortBy (x : String × String) : List (String × String) → List (String × String)
  | [] => [x]
  | y :: ys => if paramLe x y then x :: y :: ys else y :: insortBy x ys

/-- `sorted(params.items())`. -/
def sortParams (params : List (String × String)) : List (String × String) :=
  params.foldr insortBy []

/-- The string signed by `flow_sign`:
`"".join(f"{k}{v}" for k, v in sorted(params.items()))`. -/
def signBase (params : List (String × String)) : String :=
  String.join ((sortParams params).map (fun kv => kv.1 ++ kv.2))

/-- `flow_sign(params, secret)` from src/main.py. -/
def flow_sign (params : List (String × String)) (secret : String) : String :=
  hmacSha256Hex secret (signBase params)

/-- Python dict assignment `params[k] = v` on an association list with the
keys in insertion order: replace the value in place, or append. -/
def dictInsert : List (String × String) → String → String → List (String × String)
  | [], k, v => [(k, v)]
  | kv :: rest, k, v =>
      if kv.1 == k then (k, v) :: rest else kv :: dictInsert rest k v

/-- `params.get(k)` on the association list. -/
def lookupParam (k : String) (params : List (String × String)) : Option String :=
  (params.find? (fun kv => kv.1 == k)).map (fun kv => kv.2)

/-- The parameter mutation `flow_post` performs before submitting:
`params["apiKey"] = FLOW_API_KEY; params["s"] = flow_sign(params, FLOW_SECRET_KEY)`.
Returns the final submitted parameter list (the HTTP call is external). -/
def flow_post (apiKey secret : String) (params : List (String × String)) :
    List (String × String) :=
  let p1 := dictInsert params "apiKey" apiKey
  dictInsert p1 "s" (flow_sign p1 secret)

/-- The parameter list `flow_get_status` submits:
`params = {"apiKey": ..., "token": token}; params["s"] = flow_sign(params, ...)`. -/
def flow_get_status (apiKey secret token : String) : List (String × String) :=
  let params := [("apiKey", apiKey), ("token", token)]
  dictInsert params "s" (flow_sign params secret)

/-- Modelled from the spec words of claim C8: the signature the spec
describes, an HMAC-SHA256 keyed by the shared secret over the key+value
concatenation of the given parameters sorted by key — applied to the
parameter set WITHOUT the API key, which the spec says is appended after
signing. -/
def specSignature (secret : String) (params : List (String × String)) : String :=
  hmacSha256Hex secret (signBase params)

/-! ## Theorems -/

/-- C5: for every valid email, when the gateway responds with a token and a
URL, `pay_create` answers with the checkout URL formed by appending
`?token=` and the gateway token to the gateway URL, and persists exactly
one new order, Pending (status 1), whose stored `flow_token` is that
token. -/
theorem payCreate_valid_gateway_ok (payloadEmail : Option String)
    (oid co ts pub tok url : String) (store : List Order)
    (h : is_valid_email (pyNormalize (payloadEmail.getD "")) = true) :
    pay_create payloadEmail oid co ts pub (.ok ⟨some tok, some url⟩) store =
      ⟨.ok (url ++ "?token=" ++ tok) tok,
       store ++ [⟨oid, ts, pyNormalize (payloadEmail.getD ""), co, tok, 1, none, none⟩],
       some (payParams co (pyNormalize (payloadEmail.getD "")) pub)⟩ := by
  simp [pay_create, db_create_order, h]

/-- Closed instance of `payCreate_valid_gateway_ok` at a concrete valid
email and gateway response. -/
theorem payCreate_valid_gateway_ok_witness :
    is_valid_email (pyNormalize ((some "buyer@x.com").getD "")) = true ∧
    pay_create (some "buyer@x.com") "O1" "C1" "TS" "https://p"
        (.ok ⟨some "T1", some "https://gw/pay"⟩) [] =
      ⟨.ok "https://gw/pay?token=T1" "T1",
       [⟨"O1", "TS", "buyer@x.com", "C1", "T1", 1, none, none⟩],
       some (payParams "C1" "buyer@x.com" "https://p")⟩ :=
  ⟨by decide,
   (payCreate_valid_gateway_ok (some "buyer@x.com") "O1" "C1" "TS" "https://p"
      "T1" "https://gw/pay" [] (by decide)).trans (by decide)⟩

/-- C10: `pay_create` normalizes the submitted email by stripping
surrounding whitespace and lowercasing before validation, persistence and
the gateway request: validation is decided on the normalized form, and on
success the persisted order email and the `email` request parameter are
exactly the normalized form. -/
theorem payCreate_normalizes_email (payloadEmail : Option String)
    (oid co ts pub tok url : String) (store : List Order) :
    (is_valid_email (pyNormalize (payloadEmail.getD "")) = false →
      ∀ gw, pay_create payloadEmail oid co ts pub gw store =
        ⟨.invalid 400 "Email inválido", store, none⟩) ∧
    (is_valid_email (pyNormalize (payloadEmail.getD "")) = true →
      pay_create payloadEmail oid co ts pub (.ok ⟨some tok, some url⟩) store =
        ⟨.ok (url ++ "?token=" ++ tok) tok,
         store ++ [⟨oid, ts, pyNormalize (payloadEmail.getD ""), co, tok, 1, none, none⟩],
         some (payParams co (pyNormalize (payloadEmail.getD "")) pub)⟩) := by
  constructor
  · intro h gw
    simp [pay_create, h]
  · intro h
    simp [pay_create, db_create_order, h]

/-- Closed instance of `payCreate_normalizes_email`: the padded mixed-case
input is accepted and stored as its trimmed lowercase form. -/
theorem payCreate_normalizes_email_witness :
    is_valid_email (pyNormalize ((some " Buyer@X.com ").getD "")) = true ∧
    pay_create (some " Buyer@X.com ") "O1" "C1" "TS" "https://p"
        (.ok ⟨some "T1", some "https://gw/pay"⟩) [] =
      ⟨.ok "https://gw/pay?token=T1" "T1",
       [⟨"O1", "TS", "buyer@x.com", "C1", "T1", 1, none, none⟩],
       some (payParams "C1" "buyer@x.com" "https://p")⟩ :=
  ⟨by decide,
   ((payCreate_normalizes_email (some " Buyer@X.com ") "O1" "C1" "TS" "https://p"
      "T1" "https://gw/pay" []).2 (by decide)).trans (by decide)⟩

/-- C7: for every valid email, if the gateway call fails (a raised error,
or a response missing the `token` or the `url` field), `pay_create`
propagates an error and leaves the store unchanged: no partial order is
persisted. -/
theorem payCreate_gateway_failure (payloadEmail : Option String)
    (oid co ts pub : String) (gw : Except Unit FlowCreateData) (store : List Order)
    (hvalid : is_valid_email (pyNormalize (payloadEmail.getD "")) = true)
    (hbad : gw = .error () ∨ ∃ d, gw = .ok d ∧ (d.token = none ∨ d.url = none)) :
    pay_create payloadEmail oid co ts pub gw store =
      ⟨.errorProp, store, some (payParams co (pyNormalize (payloadEmail.getD "")) pub)⟩ := by
  rcases hbad with rfl | ⟨d, rfl, hd⟩
  · simp [pay_create, hvalid]
  · obtain ⟨tok?, url?⟩ := d
    rcases hd with h | h <;> simp_all <;> subst h
    · simp [pay_create, hvalid]
    · cases tok? <;> simp [pay_create, hvalid]

/-- Closed instance of `payCreate_gateway_failure` at a response missing
the `url` field. -/
theorem payCreate_gateway_failure_witness :
    is_valid_email (pyNormalize ((some "a@b.c").getD "")) = true ∧
    pay_create (some "a@b.c") "O1" "C1" "TS" "https://p" (.ok ⟨some "T1", none⟩) [] =
      ⟨.errorProp, [], some (payParams "C1" "a@b.c" "https://p")⟩ :=
  ⟨by decide,
   (payCreate_gateway_failure (some "a@b.c") "O1" "C1" "TS" "https://p"
      (.ok ⟨some "T1", none⟩) [] (by decide)
      (Or.inr ⟨⟨some "T1", none⟩, rfl, Or.inr rfl⟩)).trans (by decide)⟩

/-- C9: if the gateway reports a status whose integer value is not 2, or no
order carries the posted gateway token, the confirmation handler leaves the
store unchanged, enqueues no email, and still answers `{ok:true}`. -/
theorem confirm_noop (formToken : Option String) (statusField : Option PyVal)
    (n : Int) (fresh now base : String) (store : List Order)
    (hn : pyInt (statusField.getD (.int 0)) = some n)
    (hmiss : n ≠ 2 ∨ ∀ t, formToken = some t → db_get_by_flow_token t store = none) :
    flow_confirmation formToken (.ok statusField) fresh now base store =
      ⟨.ok, store, []⟩ := by
  unfold flow_confirmation
  simp only [hn]
  rcases hmiss with h | h
  · simp [h]
  · by_cases h2 : n = 2
    · subst h2
      cases formToken with
      | none => simp
      | some t => simp [h t rfl]
    · simp [h2]

/-- Closed instance of `confirm_noop`: status 2 but unknown token. -/
theorem confirm_noop_witness :
    pyInt ((some (PyVal.int 2)).getD (.int 0)) = some 2 ∧
    flow_confirmation (some "T9") (.ok (some (.int 2))) "D1" "now" "https://dl"
        [⟨"O1", "TS", "a@b.c", "C1", "T1", 1, none, none⟩] =
      ⟨.ok, [⟨"O1", "TS", "a@b.c", "C1", "T1", 1, none, none⟩], []⟩ :=
  ⟨rfl,
   confirm_noop (some "T9") (some (.int 2)) 2 "D1" "now" "https://dl"
     [⟨"O1", "TS", "a@b.c", "C1", "T1", 1, none, none⟩] rfl
     (Or.inr (by decide))⟩

/-- C3 (counterexample): a webhook request for which the upstream status
body is present but not numeric makes the handler raise — the error IS
surfaced to the webhook caller instead of the success body, so the claim
that every inbound request gets `{ok:true}` is false on the code. -/
theorem confirm_ack_always_counterexample :
    (flow_confirmation (some "T1") (.ok (some (.str "paid"))) "D1" "now"
        "https://dl" []).outcome ≠ ConfirmOutcome.ok := by
  decide

/-- C3 (amended): the confirmation handler returns the success body
`{ok:true}` whenever the upstream status interaction yields a parsed JSON
object whose `status` field (default 0) converts to an integer; a raised
gateway call (network failure, malformed body) or a non-numeric status
value propagates as an exception instead. -/
theorem confirm_acks_parsed_status (formToken : Option String)
    (statusField : Option PyVal) (n : Int) (fresh now base : String)
    (store : List Order)
    (hn : pyInt (statusField.getD (.int 0)) = some n) :
    (flow_confirmation formToken (.ok statusField) fresh now base store).outcome =
      ConfirmOutcome.ok := by
  unfold flow_confirmation
  simp only [hn]
  by_cases h2 : n = 2
  · subst h2
    cases formToken with
    | none => simp
    | some t =>
      simp only [if_pos rfl]
      cases db_get_by_flow_token t store <;> simp
  · simp [h2]

/-- Closed instance of `confirm_acks_parsed_status`. -/
theorem confirm_acks_parsed_status_witness :
    pyInt ((some (PyVal.str "2")).getD (.int 0)) = some 2 ∧
    (flow_confirmation (some "T1") (.ok (some (.str "2"))) "D1" "now" "https://dl"
        [⟨"O1", "TS", "a@b.c", "C1", "T1", 1, none, none⟩]).outcome =
      ConfirmOutcome.ok :=
  ⟨by decide,
   confirm_acks_parsed_status (some "T1") (some (.str "2")) 2 "D1" "now"
     "https://dl" [⟨"O1", "TS", "a@b.c", "C1", "T1", 1, none, none⟩] (by decide)⟩

/-- C4: assuming download tokens identify at most one order (the uniqueness
the schema intends), the download handler answers 403 Forbidden exactly
when no order carries the token with status Paid, and otherwise returns the
redirect-or-stream descriptor chosen by the drive-URL configuration. -/
theorem download_authorization (dt drive file : String) (store : List Order)
    (huniq : ∀ o₁ ∈ store, ∀ o₂ ∈ store,
        o₁.download_token = some dt → o₂.download_token = some dt → o₁ = o₂) :
    ((¬ ∃ o ∈ store, o.download_token = some dt ∧ o.status = 2) →
        download dt drive file store = .forbidden 403 "Link inválido") ∧
    ((∃ o ∈ store, o.download_token = some dt ∧ o.status = 2) →
        download dt drive file store =
          if drive ≠ "" then .redirect drive else .file file) := by
  constructor
  · intro hno
    unfold download db_get_by_download_token
    cases hfind : store.find? (fun o => o.download_token == some dt) with
    | none => simp
    | some row =>
      have hmem := List.mem_of_find?_eq_some hfind
      have hp := List.find?_some hfind
      simp only [beq_iff_eq] at hp
      have hst : row.status ≠ 2 := fun hs => hno ⟨row, hmem, hp, hs⟩
      simp [hst]
  · rintro ⟨o, ho, hodt, host⟩
    unfold download db_get_by_download_token
    cases hfind : store.find? (fun o => o.download_token == some dt) with
    | none =>
      exfalso
      have := List.find?_eq_none.mp hfind o ho
      simp [hodt] at this
    | some row =>
      have hmem := List.mem_of_find?_eq_some hfind
      have hp := List.find?_some hfind
      simp only [beq_iff_eq] at hp
      have hro : row = o := huniq row hmem o ho hp hodt
      subst hro
      simp [host]

/-- Closed instance of `download_authorization` on a one-order store. -/
theorem download_authorization_witness :
    ((¬ ∃ o ∈ [(⟨"O1", "TS", "a@b.c", "C1", "T1", 2, some "D1", some "P"⟩ : Order)],
          o.download_token = some "D1" ∧ o.status = 2) →
        download "D1" "" "f.zip" [⟨"O1", "TS", "a@b.c", "C1", "T1", 2, some "D1", some "P"⟩] =
          .forbidden 403 "Link inválido") ∧
    ((∃ o ∈ [(⟨"O1", "TS", "a@b.c", "C1", "T1", 2, some "D1", some "P"⟩ : Order)],
          o.download_token = some "D1" ∧ o.status = 2) →
        download "D1" "" "f.zip" [⟨"O1", "TS", "a@b.c", "C1", "T1", 2, some "D1", some "P"⟩] =
          if ("" : String) ≠ "" then .redirect "" else .file "f.zip") :=
  download_authorization "D1" "" "f.zip"
    [⟨"O1", "TS", "a@b.c", "C1", "T1", 2, some "D1", some "P"⟩] (by decide)

set_option maxRecDepth 10000 in
/-- C8 (counterexample): the claim says the API key is not part of the
signed parameter set. On the code, `flow_post` inserts `apiKey` into the
map BEFORE signing, so for the concrete map `{token: T}` the submitted
signature differs from the spec signature computed without the API key. -/
theorem flow_sign_excludes_apiKey_counterexample :
    lookupParam "s" (flow_post "K" "secret" [("token", "T")]) ≠
      some (specSignature "secret" [("token", "T")]) := by
  decide

/-- Key just inserted is found by a parameter lookup. -/
theorem lookupParam_dictInsert_self (k v : String) :
    ∀ l : List (String × String), lookupParam k (dictInsert l k v) = some v := by
  intro l
  induction l with
  | nil => simp [dictInsert, lookupParam]
  | cons kv rest ih =>
    by_cases h : kv.1 = k
    · simp [dictInsert, h, lookupParam]
    · simpa [dictInsert, h, lookupParam, List.find?_cons_of_neg] using ih

/-- Inserting under a different key does not change a parameter lookup. -/
theorem lookupParam_dictInsert_ne (k k' v : String) (hne : k' ≠ k) :
    ∀ l : List (String × String), lookupParam k' (dictInsert l k v) = lookupParam k' l := by
  intro l
  induction l with
  | nil => simp [dictInsert, lookupParam, List.find?_cons_of_neg, hne, Ne.symm hne]
  | cons kv rest ih =>
    by_cases h : kv.1 = k
    · subst h
      simp [dictInsert, lookupParam, List.find?_cons_of_neg, hne, Ne.symm hne]
    · have hstep : dictInsert (kv :: rest) k v = kv :: dictInsert rest k v := by
        simp [dictInsert, h]
      rw [hstep]
      cases hb : (kv.1 == k') with
      | true => simp [lookupParam, List.find?_cons, hb]
      | false => simpa [lookupParam, List.find?_cons, hb] using ih

/-- C8 (amended): `flow_post` first sets the API key in the parameter map
and only then computes the signature, so the submitted signature is the
HMAC-SHA256, keyed by the shared secret, of the key+value concatenation of
the parameters sorted by key name WITH the API key included in the signed
set; the signature is stored as the extra parameter `s`, and the API key is
submitted alongside. `flow_get_status` signs the same way over
`{apiKey, token}`. -/
theorem flow_post_signature (params : List (String × String))
    (apiKey secret token : String) :
    lookupParam "s" (flow_post apiKey secret params) =
      some (hmacSha256Hex secret (signBase (dictInsert params "apiKey" apiKey))) ∧
    lookupParam "apiKey" (flow_post apiKey secret params) = some apiKey ∧
    lookupParam "s" (flow_get_status apiKey secret token) =
      some (hmacSha256Hex secret (signBase [("apiKey", apiKey), ("token", token)])) := by
  refine ⟨?_, ?_, ?_⟩
  · exact lookupParam_dictInsert_self "s" _ (dictInsert params "apiKey" apiKey)
  · unfold flow_post
    rw [lookupParam_dictInsert_ne "s" "apiKey" _ (by decide)]
    exact lookupParam_dictInsert_self "apiKey" apiKey params
  · exact lookupParam_dictInsert_self "s" _ [("apiKey", apiKey), ("token", token)]

/-- `markPaidRow` never changes the gateway token column. -/
theorem markPaidRow_flow_token (t d ts : String) (o : Order) :
    (markPaidRow t d ts o).flow_token = o.flow_token := by
  unfold markPaidRow
  split <;> rfl

/-- Marking paid commutes with the gateway-token lookup. -/
theorem db_get_by_flow_token_mark (t d ts : String) (store : List Order) :
    db_get_by_flow_token t (db_mark_paid t d ts store) =
      (db_get_by_flow_token t store).map (markPaidRow t d ts) := by
  unfold db_get_by_flow_token db_mark_paid
  rw [List.find?_map]
  have hp : ((fun o : Order => o.flow_token == t) ∘ markPaidRow t d ts) =
      (fun o : Order => o.flow_token == t) := by
    funext o
    simp [Function.comp, markPaidRow_flow_token]
  rw [hp]

/-- `existing or fresh` is nonempty when the fresh token is. -/
theorem orElseFresh_ne_empty (e : Option String) (f : String) (hf : f ≠ "") :
    orElseFresh e f ≠ "" := by
  unfold orElseFresh
  cases e with
  | none => exact hf
  | some d =>
    dsimp only
    split
    · exact hf
    · assumption

/-- `existing or fresh` keeps a nonempty existing token. -/
theorem orElseFresh_some_ne (d f : String) (hd : d ≠ "") :
    orElseFresh (some d) f = d := by
  simp [orElseFresh, hd]

/-- The paid branch of the confirmation handler, explicitly: status 2 and a
matching order mark every row with that token paid and enqueue one email. -/
theorem flow_confirmation_found (t f ts b : String) (sf : Option PyVal)
    (store : List Order) (o : Order)
    (hsf : pyInt (sf.getD (.int 0)) = some 2)
    (ho : db_get_by_flow_token t store = some o) :
    flow_confirmation (some t) (.ok sf) f ts b store =
      ⟨.ok, db_mark_paid t (orElseFresh o.download_token f) ts store,
       [(o.email, "Tu Pack IA para PYMES 2026 — Descarga",
         "Gracias por tu compra.\n\nDescarga aquí:\n" ++
           (b ++ "/download/" ++ orElseFresh o.download_token f))]⟩ := by
  unfold flow_confirmation
  simp only [hsf, ho]
  simp

/-- C1: delivering the confirmation webhook twice for the same gateway
token while the gateway reports status 2 is idempotent on statuses and
download tokens: the second call reuses the download token assigned by the
first instead of minting its fresh one, and (when the token identifies one
order and nothing else is Paid) the store ends with exactly one Paid
order. -/
theorem confirm_idempotent (store : List Order) (t f1 f2 ts1 ts2 b1 b2 : String)
    (sf1 sf2 : Option PyVal)
    (h1 : pyInt (sf1.getD (.int 0)) = some 2)
    (h2 : pyInt (sf2.getD (.int 0)) = some 2)
    (hf1 : f1 ≠ "")
    (hfound : (db_get_by_flow_token t store).isSome = true) :
    ((flow_confirmation (some t) (.ok sf2) f2 ts2 b2
        (flow_confirmation (some t) (.ok sf1) f1 ts1 b1 store).store).store.map
          (fun o => (o.status, o.download_token)) =
      ((flow_confirmation (some t) (.ok sf1) f1 ts1 b1 store).store).map
          (fun o => (o.status, o.download_token))) ∧
    (store.countP (fun o => o.flow_token == t) = 1 →
      (∀ o ∈ store, o.flow_token ≠ t → o.status ≠ 2) →
      (flow_confirmation (some t) (.ok sf2) f2 ts2 b2
        (flow_confirmation (some t) (.ok sf1) f1 ts1 b1 store).store).store.countP
          (fun o => o.status == 2) = 1) := by
  obtain ⟨o₀, ho₀⟩ := Option.isSome_iff_exists.mp hfound
  have hto₀ : o₀.flow_token = t := by
    have h' : store.find? (fun o => o.flow_token == t) = some o₀ := ho₀
    simpa using List.find?_some h'
  have hr1 := flow_confirmation_found t f1 ts1 b1 sf1 store o₀ h1 ho₀
  set d1 := orElseFresh o₀.download_token f1 with hd1def
  have hd1ne : d1 ≠ "" := orElseFresh_ne_empty _ _ hf1
  have hlook2 : db_get_by_flow_token t (db_mark_paid t d1 ts1 store) =
      some (markPaidRow t d1 ts1 o₀) := by
    rw [db_get_by_flow_token_mark, ho₀]
    rfl
  have hdl : (markPaidRow t d1 ts1 o₀).download_token = some d1 := by
    simp [markPaidRow, hto₀]
  have hr2 := flow_confirmation_found t f2 ts2 b2 sf2
      (db_mark_paid t d1 ts1 store) (markPaidRow t d1 ts1 o₀) h2 hlook2
  rw [hdl, orElseFresh_some_ne d1 f2 hd1ne] at hr2
  rw [hr1]
  simp only at hr2 ⊢
  rw [hr2]
  simp only [db_mark_paid, List.map_map, List.countP_map]
  constructor
  · apply List.map_congr_left
    intro o _
    by_cases hfl : o.flow_token = t
    · simp [Function.comp, markPaidRow, hfl]
    · simp [Function.comp, markPaidRow, hfl]
  · intro huniq hnopaid
    have hcong : store.countP
        ((fun o => o.status == 2) ∘ markPaidRow t d1 ts2 ∘ markPaidRow t d1 ts1) =
        store.countP (fun o => o.flow_token == t) := by
      apply List.countP_congr
      intro o ho
      by_cases hfl : o.flow_token = t
      · simp [Function.comp, markPaidRow, hfl]
      · simp [Function.comp, markPaidRow, hfl, hnopaid o ho hfl]
    rw [hcong.trans huniq]

/-- Closed instance of `confirm_idempotent` on a one-order store with
distinct fresh tokens for the two deliveries. -/
theorem confirm_idempotent_witness :
    pyInt ((some (PyVal.int 2)).getD (.int 0)) = some 2 ∧
    ("D1" : String) ≠ "" ∧
    (db_get_by_flow_token "T1"
        [(⟨"O1", "TS", "a@b.c", "C1", "T1", 1, none, none⟩ : Order)]).isSome = true ∧
    (((flow_confirmation (some "T1") (.ok (some (.int 2))) "D2" "P2" "B2"
        (flow_confirmation (some "T1") (.ok (some (.int 2))) "D1" "P1" "B1"
          [(⟨"O1", "TS", "a@b.c", "C1", "T1", 1, none, none⟩ : Order)]).store).store.map
          (fun o => (o.status, o.download_token)) =
      ((flow_confirmation (some "T1") (.ok (some (.int 2))) "D1" "P1" "B1"
          [(⟨"O1", "TS", "a@b.c", "C1", "T1", 1, none, none⟩ : Order)]).store).map
          (fun o => (o.status, o.download_token))) ∧
    ([(⟨"O1", "TS", "a@b.c", "C1", "T1", 1, none, none⟩ : Order)].countP
        (fun o => o.flow_token == "T1") = 1 →
      (∀ o ∈ [(⟨"O1", "TS", "a@b.c", "C1", "T1", 1, none, none⟩ : Order)],
          o.flow_token ≠ "T1" → o.status ≠ 2) →
      (flow_confirmation (some "T1") (.ok (some (.int 2))) "D2" "P2" "B2"
        (flow_confirmation (some "T1") (.ok (some (.int 2))) "D1" "P1" "B1"
          [(⟨"O1", "TS", "a@b.c", "C1", "T1", 1, none, none⟩ : Order)]).store).store.countP
          (fun o => o.status == 2) = 1)) :=
  ⟨rfl, by decide, by decide,
   confirm_idempotent [(⟨"O1", "TS", "a@b.c", "C1", "T1", 1, none, none⟩ : Order)]
     "T1" "D1" "D2" "P1" "P2" "B1" "B2" (some (.int 2)) (some (.int 2))
     rfl rfl (by decide) (by decide)⟩

/-- `Char.ofNat` of a valid scalar value round-trips through `toNat`. -/
theorem charOfNat_toNat (n : Nat) (h : n.isValidChar) : (Char.ofNat n).toNat = n := by
  rw [Char.ofNat, dif_pos h]
  exact rfl

/-- `Char.toLower` only moves code points 65..90; a character whose code
point is below 65 can only be the image of itself. -/
theorem toLower_eq_low (c t : Char) (ht : t.toNat < 65) (h : c.toLower = t) : c = t := by
  simp only [Char.toLower] at h
  by_cases hc : c.toNat ≥ 65 ∧ c.toNat ≤ 90
  · exfalso
    rw [if_pos hc] at h
    have h2 := congrArg Char.toNat h
    rw [charOfNat_toNat _ (Or.inl (by omega))] at h2
    omega
  · rwa [if_neg hc] at h

/-- Python whitespace is neither `@` nor `.`. -/
theorem isPySpace_not_at_dot (c : Char) (h : isPySpace c = true) : c ≠ '@' ∧ c ≠ '.' := by
  simp only [isPySpace, Bool.or_eq_true, beq_iff_eq] at h
  rcases h with ((((h | h) | h) | h) | h) | h <;> subst h <;> exact ⟨by decide, by decide⟩

/-- Dropping up to the first `@` yields either nothing or a list headed by
`@`. -/
theorem dropWhile_at_shape (l : List Char) :
    l.dropWhile (fun c => c != '@') = [] ∨
      ∃ t, l.dropWhile (fun c => c != '@') = '@' :: t := by
  induction l with
  | nil => exact Or.inl rfl
  | cons x xs ih =>
    by_cases hx : x = '@'
    · subst hx
      exact Or.inr ⟨xs, by simp [List.dropWhile_cons]⟩
    · simpa [List.dropWhile_cons, hx] using ih

/-- A string accepted by the core email regex contains an `@` and a `.`
after its first `@`. -/
theorem emailCore_at_dot (l : List Char) (h : emailCore l = true) :
    '@' ∈ l ∧ '.' ∈ l.dropWhile (fun c => c != '@') := by
  rcases dropWhile_at_shape l with h0 | ⟨t, h0⟩
  · unfold emailCore at h
    rw [h0] at h
    simp at h
  · unfold emailCore at h
    rw [h0] at h
    simp only [Bool.and_eq_true] at h
    have hdot : '.' ∈ (t.drop 1).dropLast := by
      have := h.2
      simpa using this
    constructor
    · have : '@' ∈ l.dropWhile (fun c => c != '@') := by
        rw [h0]; exact List.mem_cons_self _ _
      exact (List.dropWhile_sublist _).subset this
    · rw [h0]
      exact List.mem_cons_of_mem _
        ((List.dropLast_sublist _).subset hdot |> (t.drop_sublist 1).subset)

/-- A `.` after the first `@` of `l.dropLast` is also one of `l`. -/
theorem dot_after_at_dropLast (l : List Char)
    (h : '.' ∈ l.dropLast.dropWhile (fun c => c != '@')) :
    '.' ∈ l.dropWhile (fun c => c != '@') := by
  induction l with
  | nil => simp at h
  | cons x xs ih =>
    cases xs with
    | nil => simp at h
    | cons y ys =>
      rw [List.dropLast_cons₂] at h
      by_cases hx : x = '@'
      · subst hx
        rw [List.dropWhile_cons] at h ⊢
        simp only [bne_self_eq_false, Bool.false_eq_true, if_false] at h ⊢
        rcases List.mem_cons.mp h with h | h
        · exact List.mem_cons.mpr (Or.inl h)
        · exact List.mem_cons.mpr
            (Or.inr ((List.dropLast_sublist (y :: ys)).subset h))
      · have hxx : (x != '@') = true := by simpa using hx
        rw [List.dropWhile_cons] at h ⊢
        rw [if_pos hxx] at h ⊢
        exact ih h

/-- A `.` after the first `@` of the stripped string is also one after the
first `@` of the original: the removed ends are whitespace, which is
neither `@` nor `.`. -/
theorem dot_after_at_strip (l : List Char)
    (h : '.' ∈ (pyStripL l).dropWhile (fun c => c != '@')) :
    '.' ∈ l.dropWhile (fun c => c != '@') := by
  have hm : l.dropWhile isPySpace =
      pyStripL l ++ ((l.dropWhile isPySpace).reverse.takeWhile isPySpace).reverse := by
    have h1 : (l.dropWhile isPySpace).reverse =
        (l.dropWhile isPySpace).reverse.takeWhile isPySpace ++
          (l.dropWhile isPySpace).reverse.dropWhile isPySpace :=
      (List.takeWhile_append_dropWhile _ _).symm
    have h2 := congrArg List.reverse h1
    rw [List.reverse_reverse, List.reverse_append] at h2
    exact h2
  have hl : l = l.takeWhile isPySpace ++ l.dropWhile isPySpace :=
    (List.takeWhile_append_dropWhile _ _).symm
  have hw1 : (l.takeWhile isPySpace).dropWhile (fun c => c != '@') = [] := by
    rw [List.dropWhile_eq_nil_iff]
    intro x hx
    have := (isPySpace_not_at_dot x (List.mem_takeWhile_imp hx)).1
    simpa using this
  have hne : ((pyStripL l).dropWhile (fun c => c != '@')).isEmpty = false := by
    rcases hempty : ((pyStripL l).dropWhile (fun c => c != '@')).isEmpty with _ | _
    · rfl
    · exact absurd (List.isEmpty_iff.mp hempty) (List.ne_nil_of_mem h)
  have hmain : '.' ∈ (l.takeWhile isPySpace ++ l.dropWhile isPySpace).dropWhile
      (fun c => c != '@') := by
    rw [List.dropWhile_append, hw1]
    simp only [List.isEmpty_nil, if_pos rfl]
    rw [hm, List.dropWhile_append]
    simp only [hne, Bool.false_eq_true, if_false]
    exact List.mem_append_left _ h
  rwa [← hl] at hmain

/-- Stripping yields a sublist. -/
theorem pyStripL_sublist (l : List Char) : (pyStripL l).Sublist l := by
  unfold pyStripL
  have h1 : ((l.dropWhile isPySpace).reverse.dropWhile isPySpace).Sublist
      (l.dropWhile isPySpace).reverse := List.dropWhile_sublist _
  have h2 := h1.reverse
  rw [List.reverse_reverse] at h2
  exact h2.trans (List.dropWhile_sublist _)

/-- An `@` in the lowercased list comes from an `@`. -/
theorem toLower_map_at (x : List Char) (h : '@' ∈ x.map Char.toLower) : '@' ∈ x := by
  obtain ⟨c, hc, hce⟩ := List.mem_map.mp h
  exact (toLower_eq_low c '@' (by decide) hce) ▸ hc

/-- A `.` in the lowercased list comes from a `.`. -/
theorem toLower_map_dot (x : List Char) (h : '.' ∈ x.map Char.toLower) : '.' ∈ x := by
  obtain ⟨c, hc, hce⟩ := List.mem_map.mp h
  exact (toLower_eq_low c '.' (by decide) hce) ▸ hc

/-- Lowercasing commutes with splitting at the first `@`. -/
theorem dropWhile_at_map_toLower (x : List Char) :
    (x.map Char.toLower).dropWhile (fun c => c != '@') =
      (x.dropWhile (fun c => c != '@')).map Char.toLower := by
  rw [List.dropWhile_map]
  have hp : ((fun c : Char => c != '@') ∘ Char.toLower) = (fun c : Char => c != '@') := by
    funext c
    by_cases hc : c = '@'
    · subst hc
      simp [Function.comp]
    · have hlc : Char.toLower c ≠ '@' := fun hh => hc (toLower_eq_low c '@' (by decide) hh)
      have h1 : (Char.toLower c != '@') = true := by simpa using hlc
      have h2 : (c != '@') = true := by simpa using hc
      simp [Function.comp, h1, h2]
  rw [hp]

/-- A string accepted by `is_valid_email` contains an `@` and a `.` after
its first `@`. -/
theorem is_valid_email_at_dot (s : String) (h : is_valid_email s = true) :
    '@' ∈ s.data ∧ '.' ∈ s.data.dropWhile (fun c => c != '@') := by
  unfold is_valid_email at h
  rcases Bool.or_eq_true_iff.mp h with h | h
  · exact emailCore_at_dot _ h
  · cases hgl : s.data.getLast? with
    | none => rw [hgl] at h; simp at h
    | some c =>
      rw [hgl] at h
      have hcore : emailCore s.data.dropLast = true := by
        simp only [Bool.and_eq_true] at h
        exact h.2
      have hd := emailCore_at_dot _ hcore
      exact ⟨(List.dropLast_sublist _).subset hd.1, dot_after_at_dropLast _ hd.2⟩

/-- Normalisation (strip + lower) cannot create an `@`, nor a `.` after the
first `@`. -/
theorem normalize_at_dot (s : String) :
    ('@' ∈ (pyNormalize s).data → '@' ∈ s.data) ∧
    ('.' ∈ (pyNormalize s).data.dropWhile (fun c => c != '@') →
      '.' ∈ s.data.dropWhile (fun c => c != '@')) := by
  have hdata : (pyNormalize s).data = (pyStripL s.data).map Char.toLower := rfl
  constructor
  · intro h
    rw [hdata] at h
    exact (pyStripL_sublist s.data).subset (toLower_map_at _ h)
  · intro h
    rw [hdata, dropWhile_at_map_toLower] at h
    exact dot_after_at_strip s.data (toLower_map_dot _ h)

/-- C6: a submitted email missing an `@`, or missing a `.` after its first
`@` (so in particular in the domain part), fails validation after
normalisation: `pay_create` answers 400 InvalidInput and the store is
unchanged, whatever the gateway would do. -/
theorem payCreate_malformed_email (s oid co ts pub : String)
    (gw : Except Unit FlowCreateData) (store : List Order)
    (hbad : '@' ∉ s.data ∨ '.' ∉ s.data.dropWhile (fun c => c != '@')) :
    pay_create (some s) oid co ts pub gw store =
      ⟨.invalid 400 "Email inválido", store, none⟩ := by
  have hval : is_valid_email (pyNormalize s) = false := by
    cases hv : is_valid_email (pyNormalize s) with
    | false => rfl
    | true =>
      exfalso
      have hreq := is_valid_email_at_dot _ hv
      rcases hbad with hb | hb
      · exact hb ((normalize_at_dot s).1 hreq.1)
      · exact hb ((normalize_at_dot s).2 hreq.2)
  simp [pay_create, hval]

/-- Closed instance of `payCreate_malformed_email`: an address without `@`
and one whose domain has no dot are both rejected with an untouched
store. -/
theorem payCreate_malformed_email_witness :
    ('@' ∉ "userx.com".data ∨ '.' ∉ "userx.com".data.dropWhile (fun c => c != '@')) ∧
    pay_create (some "userx.com") "O1" "C1" "TS" "https://p"
        (.ok ⟨some "T1", some "U"⟩) [] =
      ⟨.invalid 400 "Email inválido", [], none⟩ :=
  ⟨Or.inl (by decide),
   payCreate_malformed_email "userx.com" "O1" "C1" "TS" "https://p"
     (.ok ⟨some "T1", some "U"⟩) [] (Or.inl (by decide))⟩

/-- Zipping a list with itself extended on the right pairs each element
with itself. -/
theorem zip_append_fst_eq {α : Type} :
    ∀ (s l : List α), ∀ p ∈ s.zip (s ++ l), p.1 = p.2 := by
  intro s
  induction s with
  | nil => intro l p hp; simp at hp
  | cons a rest ih =>
    intro l p hp
    rcases List.mem_cons.mp hp with h | h
    · rw [h]
    · exact ih l p h

/-- Zipping a list with itself pairs each element with itself. -/
theorem zip_self_fst_eq {α : Type} :
    ∀ (s : List α), ∀ p ∈ s.zip s, p.1 = p.2 := by
  intro s
  induction s with
  | nil => intro p hp; simp at hp
  | cons a rest ih =>
    intro p hp
    rcases List.mem_cons.mp hp with h | h
    · rw [h]
    · exact ih p h

/-- Zipping a list with its image pairs each element with its image. -/
theorem zip_map_snd_eq {α : Type} (f : α → α) (s : List α) :
    ∀ p ∈ s.zip (s.map f), p.2 = f p.1 := by
  intro p hp
  rw [List.zip_map_right] at hp
  obtain ⟨q, hq, hpe⟩ := List.mem_map.mp hp
  have h1 := zip_self_fst_eq s q hq
  subst hpe
  simp [Prod.map, ← h1]

/-- A row trivially evolves into itself. -/
theorem orderEvolve_refl (o : Order) : orderEvolve o o :=
  ⟨fun h => ⟨h, rfl⟩, fun _ => rfl, fun h => absurd rfl h⟩

/-- The store after `pay_create`: unchanged, or one appended fresh Pending
row. -/
theorem pay_create_store_shape (p : Option String) (oid co ts pub : String)
    (gw : Except Unit FlowCreateData) (store : List Order) :
    (pay_create p oid co ts pub gw store).store = store ∨
    ∃ em tok, (pay_create p oid co ts pub gw store).store =
      store ++ [⟨oid, ts, em, co, tok, 1, none, none⟩] := by
  rcases hv : is_valid_email (pyNormalize (p.getD "")) with _ | _
  · exact Or.inl (by simp [pay_create, hv])
  · cases gw with
    | error e => exact Or.inl (by simp [pay_create, hv])
    | ok d =>
      obtain ⟨tok?, url?⟩ := d
      cases tok? with
      | none => exact Or.inl (by simp [pay_create, hv])
      | some tok =>
        cases url? with
        | none => exact Or.inl (by simp [pay_create, hv])
        | some url =>
          exact Or.inr ⟨pyNormalize (p.getD ""), tok,
            by simp [pay_create, hv, db_create_order]⟩

/-- The store after `flow_confirmation`: unchanged, or every row with the
posted gateway token marked paid with the token chosen from the looked-up
row. -/
theorem flow_confirmation_store_shape (ft : Option String) (gw : GwStatusResult)
    (fresh now base : String) (store : List Order) :
    (flow_confirmation ft gw fresh now base store).store = store ∨
    ∃ t o, ft = some t ∧ db_get_by_flow_token t store = some o ∧
      (flow_confirmation ft gw fresh now base store).store =
        db_mark_paid t (orElseFresh o.download_token fresh) now store := by
  cases gw with
  | raise => exact Or.inl (by simp [flow_confirmation])
  | ok sf =>
    cases hpi : pyInt (sf.getD (.int 0)) with
    | none => exact Or.inl (by simp [flow_confirmation, hpi])
    | some n =>
      by_cases h2 : n = 2
      · subst h2
        cases ft with
        | none => exact Or.inl (by simp [flow_confirmation, hpi])
        | some t =>
          cases hdb : db_get_by_flow_token t store with
          | none => exact Or.inl (by simp [flow_confirmation, hpi, hdb])
          | some o =>
            exact Or.inr ⟨t, o, rfl, hdb, by simp [flow_confirmation, hpi, hdb]⟩
      · exact Or.inl (by simp [flow_confirmation, hpi, h2])

/-- Marking paid commutes with any gateway-token lookup, not only the
marked one. -/
theorem db_get_by_flow_token_mark_any (u t d ts : String) (store : List Order) :
    db_get_by_flow_token u (db_mark_paid t d ts store) =
      (db_get_by_flow_token u store).map (markPaidRow t d ts) := by
  unfold db_get_by_flow_token db_mark_paid
  rw [List.find?_map]
  have hp : ((fun o : Order => o.flow_token == u) ∘ markPaidRow t d ts) =
      (fun o : Order => o.flow_token == u) := by
    funext o
    simp [Function.comp, markPaidRow_flow_token]
  rw [hp]

/-- Appending a Pending row with no download token preserves the store
invariant. -/
theorem storeInv_append_pending (store : List Order) (row : Order)
    (hrow : row.status = 1 ∧ row.download_token = none) (h : storeInv store) :
    storeInv (store ++ [row]) := by
  constructor
  · intro o ho
    rcases List.mem_append.mp ho with ho | ho
    · exact h.1 o ho
    · have heq : o = row := by simpa using ho
      subst heq
      exact Or.inl hrow
  · intro o ho
    rcases List.mem_append.mp ho with ho | ho
    · cases hdt0 : o.download_token with
      | none => exact Or.inl rfl
      | some dv =>
        right
        rcases h.2 o ho with hnone | hco
        · rw [hdt0] at hnone; cases hnone
        · rw [← hdt0, hco]
          have hs : (store.find? (fun r => r.flow_token == o.flow_token)).isSome = true :=
            List.find?_isSome.mpr ⟨o, ho, by simp⟩
          obtain ⟨x, hx⟩ := Option.isSome_iff_exists.mp hs
          unfold firstDT db_get_by_flow_token
          rw [List.find?_append, hx]
          rfl
    · have heq : o = row := by simpa using ho
      subst heq
      exact Or.inl hrow.2

/-- Marking every row with a gateway token paid, with the token chosen from
the looked-up first row, preserves the store invariant. -/
theorem storeInv_mark (store : List Order) (t fresh now : String)
    (hfresh : fresh ≠ "") (h : storeInv store) (o₀ : Order)
    (ho₀ : db_get_by_flow_token t store = some o₀) :
    storeInv (db_mark_paid t (orElseFresh o₀.download_token fresh) now store) := by
  set d1 := orElseFresh o₀.download_token fresh with hd1
  have hd1ne : d1 ≠ "" := orElseFresh_ne_empty _ _ hfresh
  have hto₀ : o₀.flow_token = t := by
    have h' : store.find? (fun o => o.flow_token == t) = some o₀ := ho₀
    simpa using List.find?_some h'
  constructor
  · intro o' ho'
    obtain ⟨o, ho, rfl⟩ := List.mem_map.mp ho'
    by_cases hft : o.flow_token = t
    · refine Or.inr ⟨by simp [markPaidRow, hft], ?_, ?_⟩
      · simp [markPaidRow, hft]
      · simp [markPaidRow, hft, hd1ne]
    · have heq : markPaidRow t d1 now o = o := by simp [markPaidRow, hft]
      rw [heq]
      exact h.1 o ho
  · intro o' ho'
    obtain ⟨o, ho, rfl⟩ := List.mem_map.mp ho'
    by_cases hft : o.flow_token = t
    · right
      have hdl : (markPaidRow t d1 now o).download_token = some d1 := by
        simp [markPaidRow, hft]
      have hfl : (markPaidRow t d1 now o).flow_token = t := by
        rw [markPaidRow_flow_token]; exact hft
      rw [hdl, hfl]
      unfold firstDT
      rw [show db_mark_paid t d1 now store = db_mark_paid t d1 now store from rfl,
        db_get_by_flow_token_mark_any, ho₀]
      simp [markPaidRow, hto₀]
    · have heq : markPaidRow t d1 now o = o := by simp [markPaidRow, hft]
      rw [heq]
      cases hdt0 : o.download_token with
      | none => exact Or.inl rfl
      | some dv =>
        right
        rcases h.2 o ho with hnone | hco
        · rw [hdt0] at hnone; cases hnone
        · rw [← hdt0, hco]
          unfold firstDT
          rw [db_get_by_flow_token_mark_any]
          cases hfx : db_get_by_flow_token o.flow_token store with
          | none =>
            unfold firstDT at hco
            rw [hfx] at hco
            rw [hdt0] at hco
            cases hco
          | some o₁ =>
            have ho₁ft : o₁.flow_token = o.flow_token := by
              have h' : store.find? (fun r => r.flow_token == o.flow_token) = some o₁ := hfx
              simpa using List.find?_some h'
            have ho₁eq : markPaidRow t d1 now o₁ = o₁ := by
              simp [markPaidRow, ho₁ft, hft]
            simp [ho₁eq]

/-- Under the store invariant, a mark-paid pass lets every row evolve
legally: Paid rows keep status and token, assigned tokens are kept, and a
token is newly assigned only on a Pending to Paid transition. -/
theorem orderEvolve_mark (store : List Order) (t fresh now : String)
    (h : storeInv store) (o₀ : Order)
    (ho₀ : db_get_by_flow_token t store = some o₀) (o : Order) (ho : o ∈ store) :
    orderEvolve o (markPaidRow t (orElseFresh o₀.download_token fresh) now o) := by
  set d1 := orElseFresh o₀.download_token fresh with hd1
  by_cases hft : o.flow_token = t
  · have hkey : ∀ dv, o.download_token = some dv → dv = d1 := by
      intro dv hdv
      rcases h.2 o ho with hnone | hco
      · rw [hdv] at hnone; cases hnone
      · rw [hft] at hco
        unfold firstDT at hco
        rw [ho₀] at hco
        simp only [Option.some_bind] at hco
        have hdvne : dv ≠ "" := by
          rcases h.1 o ho with ⟨_, hn⟩ | ⟨_, hdt⟩
          · rw [hdv] at hn; cases hn
          · intro hdv0
            subst hdv0
            exact hdt.2 (by rw [hdv])
        have ho₀dt : o₀.download_token = some dv := by rw [← hco, hdv]
        rw [hd1, ho₀dt, orElseFresh_some_ne dv fresh hdvne]
    refine ⟨?_, ?_, ?_⟩
    · intro hst
      refine ⟨by simp [markPaidRow, hft], ?_⟩
      rcases h.1 o ho with ⟨h1, _⟩ | ⟨_, hdt⟩
      · rw [hst] at h1; cases h1
      · obtain ⟨dv, hdv⟩ := Option.ne_none_iff_exists'.mp hdt.1
        rw [hdv, hkey dv hdv]
        simp [markPaidRow, hft]
    · intro hne
      obtain ⟨dv, hdv⟩ := Option.ne_none_iff_exists'.mp hne
      rw [hdv, hkey dv hdv]
      simp [markPaidRow, hft]
    · intro hne
      cases hdt0 : o.download_token with
      | some dv =>
        exfalso
        apply hne
        rw [hdt0, hkey dv hdt0]
        simp [markPaidRow, hft]
      | none =>
        refine ⟨?_, by simp [markPaidRow, hft], rfl⟩
        rcases h.1 o ho with ⟨h1, _⟩ | ⟨_, hdt⟩
        · exact h1
        · exact absurd hdt0 hdt.1
  · have heq : markPaidRow t d1 now o = o := by simp [markPaidRow, hft]
    rw [heq]
    exact orderEvolve_refl o

/-- One well-formed handler call preserves the store invariant. -/
theorem storeInv_step (op : Op) (s : List Order) (hwf : opWf op) (h : storeInv s) :
    storeInv (step op s) := by
  cases op with
  | pay p oid co ts pub gw =>
    rcases pay_create_store_shape p oid co ts pub gw s with heq | ⟨em, tok, heq⟩
    · simp only [step]; rw [heq]; exact h
    · simp only [step]; rw [heq]
      exact storeInv_append_pending s _ ⟨rfl, rfl⟩ h
  | confirm ft gw fresh now base =>
    rcases flow_confirmation_store_shape ft gw fresh now base s with heq | ⟨t, o, _, hdb, heq⟩
    · simp only [step]; rw [heq]; exact h
    · simp only [step]; rw [heq]
      exact storeInv_mark s t fresh now hwf h o hdb
  | download dt drive file => exact h

/-- One well-formed handler call from an invariant store lets every
existing row evolve legally. -/
theorem step_orderEvolve (op : Op) (s : List Order) (hwf : opWf op)
    (h : storeInv s) : ∀ p ∈ s.zip (step op s), orderEvolve p.1 p.2 := by
  intro p hp
  cases op with
  | pay pe oid co ts pub gw =>
    rcases pay_create_store_shape pe oid co ts pub gw s with heq | ⟨em, tok, heq⟩
    · simp only [step] at hp; rw [heq] at hp
      rw [zip_self_fst_eq s p hp]
      exact orderEvolve_refl _
    · simp only [step] at hp; rw [heq] at hp
      rw [zip_append_fst_eq s _ p hp]
      exact orderEvolve_refl _
  | confirm ft gw fresh now base =>
    rcases flow_confirmation_store_shape ft gw fresh now base s with heq | ⟨t, o, _, hdb, heq⟩
    · simp only [step] at hp; rw [heq] at hp
      rw [zip_self_fst_eq s p hp]
      exact orderEvolve_refl _
    · simp only [step] at hp; rw [heq] at hp
      have h2 := zip_map_snd_eq (markPaidRow t (orElseFresh o.download_token fresh) now) s p hp
      have h1 : p.1 ∈ s := (List.of_mem_zip hp).1
      rw [show p = (p.1, p.2) from rfl, h2]
      exact orderEvolve_mark s t fresh now h o hdb p.1 h1
  | download dt drive file =>
    simp only [step] at hp
    rw [zip_self_fst_eq s p hp]
    exact orderEvolve_refl _

/-- The empty store satisfies the invariant. -/
theorem storeInv_nil : storeInv ([] : List Order) :=
  ⟨fun o ho => absurd ho (List.not_mem_nil o), fun o ho => absurd ho (List.not_mem_nil o)⟩

/-- Any well-formed call sequence from an invariant store keeps the
invariant. -/
theorem storeInv_run (ops : List Op) :
    ∀ s : List Order, (∀ o ∈ ops, opWf o) → storeInv s → storeInv (run ops s) := by
  induction ops with
  | nil => intro s _ hs; exact hs
  | cons op rest ih =>
    intro s hwf hs
    have hstep := storeInv_step op s (hwf op (List.mem_cons_self _ _)) hs
    exact ih (step op s) (fun o ho => hwf o (List.mem_cons_of_mem _ ho)) hstep

/-- C2: every store reachable from the empty table by well-formed handler
calls satisfies the lifecycle invariant (Pending rows have no download
token, Paid rows a nonempty one, rows sharing a gateway token agree with
the looked-up row), and across one further call every pre-existing row
evolves legally: status never regresses from Paid (2) to Pending (1), an
assigned download token is never replaced, and a download token is
assigned at most once — exactly at the Pending to Paid transition. -/
theorem order_lifecycle (ops : List Op) (op : Op)
    (hops : ∀ o ∈ ops, opWf o) (hop : opWf op) :
    storeInv (run ops []) ∧
    ∀ p ∈ (run ops []).zip (step op (run ops [])), orderEvolve p.1 p.2 := by
  have hinv : storeInv (run ops []) := storeInv_run ops [] hops storeInv_nil
  exact ⟨hinv, step_orderEvolve op (run ops []) hop hinv⟩

/-- Closed instance of `order_lifecycle`: create then confirm, followed by
a replayed confirmation webhook. -/
theorem order_lifecycle_witness :
    storeInv (run
      [Op.pay (some "a@b.c") "O1" "C1" "TS" "P" (.ok ⟨some "T1", some "U"⟩),
       Op.confirm (some "T1") (.ok (some (.int 2))) "D1" "N1" "B"] []) ∧
    ∀ p ∈ (run
      [Op.pay (some "a@b.c") "O1" "C1" "TS" "P" (.ok ⟨some "T1", some "U"⟩),
       Op.confirm (some "T1") (.ok (some (.int 2))) "D1" "N1" "B"] []).zip
        (step (Op.confirm (some "T1") (.ok (some (.int 2))) "D2" "N2" "B")
          (run
            [Op.pay (some "a@b.c") "O1" "C1" "TS" "P" (.ok ⟨some "T1", some "U"⟩),
             Op.confirm (some "T1") (.ok (some (.int 2))) "D1" "N1" "B"] [])),
      orderEvolve p.1 p.2 :=
  order_lifecycle
    [Op.pay (some "a@b.c") "O1" "C1" "TS" "P" (.ok ⟨some "T1", some "U"⟩),
     Op.confirm (some "T1") (.ok (some (.int 2))) "D1" "N1" "B"]
    (Op.confirm (some "T1") (.ok (some (.int 2))) "D2" "N2" "B")
    (by decide) (by decide)
